import Mathlib

/-!
# Verification of the note-enrichment service of timothywisdom/note-app

Shallow embedding of the note data model and the Notes Service operations.
The data model (`Note`, `NoteMetadata`, `NoteEnrichment`) is translated from
the TypeScript type declarations in `src/unnamed/part_002`; the server-side
Notes Service, Note Store and the stub LLM backend are Python modules
(`notes/services/notes_service.py`, `notes/services/llm_stub_service.py`)
that are not present under `src/` (only their README, client callers and
wire types are), so they are modelled from the spec, as marked on each
definition.

Machine conventions: timestamps are `Nat` ticks of a logical clock carried
by the service state (the spec mandates `updated_at` advances strictly
forward on every mutation); ids are `Nat` drawn from a fresh-id counter
(the source generates opaque unique ids, never reused); the float
`complexity_score` is modelled as `ℚ`.
-/

namespace NoteApp

/-- Modelled from the spec: the Sentiment enumeration of
`notes/models/enums.py` (missing from src/) — "one of a fixed enumeration:
positive/neutral/negative". -/
inductive Sentiment where
  | positive
  | neutral
  | negative
deriving DecidableEq, Repr

/-- Interface `NoteMetadata` from `src/unnamed/part_002` lines 34-43: the optional
enrichment bag. `sentiment` uses the server's fixed enumeration and
`complexity_score` is `ℚ` standing for the source float. -/
structure NoteMetadata where
  summary : Option String := none
  topics : Option (List String) := none
  sentiment : Option Sentiment := none
  key_entities : Option (List String) := none
  suggested_tags : Option (List String) := none
  complexity_score : Option ℚ := none
  enrichment_timestamp : Option Nat := none
  llm_model : Option String := none
deriving DecidableEq, Repr

/-- The `Object.keys(note.metadata).length > 0` test of
`src/unnamed/part_004` line 118: the metadata object has no fields. -/
def NoteMetadata.isEmpty (m : NoteMetadata) : Bool :=
  m.summary.isNone && m.topics.isNone && m.sentiment.isNone &&
  m.key_entities.isNone && m.suggested_tags.isNone &&
  m.complexity_score.isNone && m.enrichment_timestamp.isNone &&
  m.llm_model.isNone

/-- Interface `Note` from `src/unnamed/part_002` lines 4-11. The `metadata` field is
always present (it is not optional in the interface). -/
structure Note where
  id : Nat
  content : String
  user_id : String
  created_at : Nat
  updated_at : Nat
  metadata : NoteMetadata
deriving DecidableEq, Repr

/-- Modelled from the spec: the error taxonomy of
`notes/models/exceptions.py` (missing from src/) — `ValidationError`,
`NotFound`, `Forbidden`, `EnrichmentFailed` (spec section 7). -/
inductive NoteError where
  | validationError
  | notFound
  | forbidden
  | enrichmentFailed
deriving DecidableEq, Repr

/-- The content part of `NoteEnrichment` from `src/unnamed/part_002` lines
23-32, as produced by a backend before the service stamps
`enrichment_timestamp` and `llm_model`. -/
structure EnrichResult where
  summary : String
  topics : List String
  sentiment : Sentiment
  key_entities : List String
  suggested_tags : List String
  complexity_score : ℚ
deriving DecidableEq, Repr

/-- Modelled from the spec: the LLM service protocol of
`notes/interfaces/llm_service_protocol.py` (missing from src/) — a
capability with one method `enrich(text)` that returns a structured result
or fails, plus the producing backend's model identifier. -/
structure LLMBackend where
  model_identifier : String
  enrich : String → Option EnrichResult

/-- Truncation of a string to its first `k` characters (the stub's
"trivial summary = truncated text"). -/
def truncate (text : String) (k : Nat) : String :=
  ⟨text.data.take k⟩

/-- Modelled from the spec: the result the deterministic stub derives
from a text — trivial summary = truncated text, fixed sentiment, fixed
complexity score. -/
def stubResult (text : String) : EnrichResult :=
  { summary := truncate text 100
    topics := ["note"]
    sentiment := .neutral
    key_entities := []
    suggested_tags := ["note"]
    complexity_score := 1/2 }

/-- Modelled from the spec: the stub variant of
`notes/services/llm_stub_service.py` (missing from src/) —
"deterministic, offline, returns a fixed or lightly-derived metadata
object (e.g., trivial summary = truncated text, fixed sentiment)". -/
def stubBackend : LLMBackend where
  model_identifier := "stub"
  enrich := fun text => some (stubResult text)

/-- A backend whose external call always fails (network error, non-2xx or
malformed payload in the real variant); used to exercise the failure
path. -/
def failingBackend : LLMBackend where
  model_identifier := "failing"
  enrich := fun _ => none

/-- Modelled from the spec: the process-wide state of the Note Store plus
the service's id generator, with a logical clock supplying the "current
time" stamps. -/
structure ServiceState where
  notes : List Note
  nextId : Nat
  clock : Nat

/-- The empty store at process start. -/
def ServiceState.init : ServiceState :=
  { notes := [], nextId := 0, clock := 0 }

/-- Modelled from the spec: the store's exact-id lookup
(`get(id) -> note | NotFound`, no ownership check). The notes list is kept
most-recently-created first. -/
def ServiceState.find (s : ServiceState) (id : Nat) : Option Note :=
  s.notes.find? (fun n => n.id == id)

/-- Whether `content` is empty after trimming — equivalently, every character is
whitespace (the `formData.content.trim()` falsiness test of
`src/unnamed/part_003` line 24, and the service's server-side
validation). -/
def isBlank (content : String) : Bool :=
  content.data.all Char.isWhitespace

/-- Modelled from the spec: `create_note(content, owner_id)` — content
must be non-empty after trimming, else `ValidationError` and no note is
stored; otherwise a fresh id and timestamps are generated
(`created_at = updated_at = now`), metadata starts empty, and the note is
persisted. Failure leaves the state unchanged. -/
def create_note (content user_id : String) (s : ServiceState) :
    Except NoteError Note × ServiceState :=
  if isBlank content then (.error .validationError, s)
  else
    let note : Note :=
      { id := s.nextId, content := content, user_id := user_id
        created_at := s.clock, updated_at := s.clock, metadata := {} }
    (.ok note,
      { notes := note :: s.notes, nextId := s.nextId + 1, clock := s.clock + 1 })

/-- Modelled from the spec: `get_note(id, owner_id)` — `NotFound` if no
note with that id exists, `Forbidden` if it exists but its owner differs
from the requester. Read-only. -/
def get_note (id : Nat) (user_id : String) (s : ServiceState) :
    Except NoteError Note :=
  match s.find id with
  | none => .error .notFound
  | some n => if n.user_id = user_id then .ok n else .error .forbidden

/-- Modelled from the spec: `get_notes(owner_id)` — all notes whose owner
matches, most-recently-created first; never fails. -/
def get_notes (user_id : String) (s : ServiceState) : List Note :=
  s.notes.filter (fun n => n.user_id == user_id)

/-- Whether a supplied optional content update fails validation: given but
empty after trimming. -/
def badContent (content? : Option String) : Bool :=
  match content? with
  | some c => isBlank c
  | none => false

/-- Modelled from the spec: `update_note(id, owner_id, content?,
metadata?)` — ownership-checked; given content must be non-empty after
trimming; given metadata fully replaces the existing metadata; stamps a
new `updated_at`. Failure leaves the state unchanged. -/
def update_note (id : Nat) (user_id : String) (content? : Option String)
    (metadata? : Option NoteMetadata) (s : ServiceState) :
    Except NoteError Note × ServiceState :=
  match s.find id with
  | none => (.error .notFound, s)
  | some n =>
    if n.user_id ≠ user_id then (.error .forbidden, s)
    else if badContent content? then (.error .validationError, s)
    else
      let n' : Note :=
        { n with content := content?.getD n.content
                 metadata := metadata?.getD n.metadata
                 updated_at := s.clock }
      (.ok n',
        { s with notes := s.notes.map (fun m => if m.id == id then n' else m)
                 clock := s.clock + 1 })

/-- Modelled from the spec: `delete_note(id, owner_id)` —
ownership-checked; removes the note and reports success. The id counter
never decreases, so a deleted id is never reused. -/
def delete_note (id : Nat) (user_id : String) (s : ServiceState) :
    Except NoteError Bool × ServiceState :=
  match s.find id with
  | none => (.error .notFound, s)
  | some n =>
    if n.user_id ≠ user_id then (.error .forbidden, s)
    else (.ok true, { s with notes := s.notes.filter (fun m => m.id != id) })

/-- The metadata object built from a backend result, stamped with the
producing backend's model identifier and the current time; a function of
these three inputs only — the note's previous metadata does not enter. -/
def metadataOfResult (r : EnrichResult) (model : String) (now : Nat) :
    NoteMetadata :=
  { summary := some r.summary
    topics := some r.topics
    sentiment := some r.sentiment
    key_entities := some r.key_entities
    suggested_tags := some r.suggested_tags
    complexity_score := some r.complexity_score
    enrichment_timestamp := some now
    llm_model := some model }

/-- Modelled from the spec: `enrich_note(id, owner_id)` —
ownership-checked; invokes the backend synchronously with the note's
current content; on success replaces the note's metadata with the stamped
result and persists; on backend failure the note is left unmodified and
the failure surfaces as `EnrichmentFailed`. -/
def enrich_note (backend : LLMBackend) (id : Nat) (user_id : String)
    (s : ServiceState) : Except NoteError Note × ServiceState :=
  match s.find id with
  | none => (.error .notFound, s)
  | some n =>
    if n.user_id ≠ user_id then (.error .forbidden, s)
    else
      match backend.enrich n.content with
      | none => (.error .enrichmentFailed, s)
      | some r =>
        let n' : Note :=
          { n with metadata := metadataOfResult r backend.model_identifier s.clock
                   updated_at := s.clock }
        (.ok n',
          { s with notes := s.notes.map (fun m => if m.id == id then n' else m)
                   clock := s.clock + 1 })

/-- The timestamp-free fields of a metadata object, used to state that two
enrichments agree "up to timestamps". -/
def metaContent (m : NoteMetadata) :
    Option String × Option (List String) × Option Sentiment ×
    Option (List String) × Option (List String) × Option ℚ × Option String :=
  (m.summary, m.topics, m.sentiment, m.key_entities, m.suggested_tags,
   m.complexity_score, m.llm_model)

/-- A metadata object satisfies the data-model constraints: sentiment,
when present, is one of the three enumeration values, and
complexity_score, when present, lies in [0, 1]. -/
def metaOK (m : NoteMetadata) : Bool :=
  m.sentiment.all (fun sv =>
    decide (sv = .positive ∨ sv = .neutral ∨ sv = .negative)) &&
  m.complexity_score.all (fun c => decide (0 ≤ c ∧ c ≤ 1))

/-- Every note stored in the state carries constraint-satisfying
metadata. -/
def StoreMetaOK (s : ServiceState) : Prop :=
  ∀ n ∈ s.notes, metaOK n.metadata = true

/-- A backend honours the schema constraints: any result it produces has
complexity_score in [0, 1] (the real variant validates responses against
the schema; the stub is checked directly). -/
def BackendOK (b : LLMBackend) : Prop :=
  ∀ text r, b.enrich text = some r →
    0 ≤ r.complexity_score ∧ r.complexity_score ≤ 1

/-- The state after the spec's concrete scenario step 1: create
`{content: "Buy milk", owner_id: "u1"}` in a fresh store. -/
def demoState : ServiceState :=
  (create_note "Buy milk" "u1" ServiceState.init).2

/-- The note stored by `demoState`. -/
def demoNote : Note :=
  { id := 0, content := "Buy milk", user_id := "u1"
    created_at := 0, updated_at := 0, metadata := {} }

/-- The state of the spec's listing scenario: three notes created for
`"u1"` and then one for `"u2"`. -/
def listState : ServiceState :=
  (create_note "note four" "u2"
    (create_note "note three" "u1"
      (create_note "note two" "u1"
        (create_note "note one" "u1" ServiceState.init).2).2).2).2

/-- C1: for every content that is non-empty after trimming and every
owner, `create_note` followed by `get_note` with the returned id and the
same owner succeeds and returns a note whose content is the given content,
whose owner is the given owner, whose `created_at` equals its
`updated_at`, and whose metadata is empty. -/
theorem create_then_get_roundtrip (content owner : String) (s : ServiceState)
    (h : isBlank content = false) :
    ∃ note s',
      create_note content owner s = (.ok note, s') ∧
      get_note note.id owner s' = .ok note ∧
      note.content = content ∧
      note.user_id = owner ∧
      note.created_at = note.updated_at ∧
      note.metadata = ({} : NoteMetadata) := by
  refine ⟨{ id := s.nextId, content := content, user_id := owner
            created_at := s.clock, updated_at := s.clock, metadata := {} },
          { notes := { id := s.nextId, content := content, user_id := owner
                       created_at := s.clock, updated_at := s.clock
                       metadata := {} } :: s.notes
            nextId := s.nextId + 1, clock := s.clock + 1 },
          ?_, ?_, rfl, rfl, rfl, rfl⟩
  · simp [create_note, h]
  · simp [get_note, ServiceState.find]

/-- Witness for C1 at the spec's concrete input. -/
theorem create_then_get_roundtrip_witness :
    (isBlank "Buy milk" = false) ∧
    ∃ note s',
      create_note "Buy milk" "u1" ServiceState.init = (.ok note, s') ∧
      get_note note.id "u1" s' = .ok note ∧
      note.content = "Buy milk" ∧
      note.user_id = "u1" ∧
      note.created_at = note.updated_at ∧
      note.metadata = ({} : NoteMetadata) :=
  ⟨by decide,
   create_then_get_roundtrip "Buy milk" "u1" ServiceState.init (by decide)⟩

/-- C4: for every owner, `create_note` with content that is empty after
trimming fails with `ValidationError` and leaves the store unchanged. -/
theorem create_empty_content_fails (content owner : String) (s : ServiceState)
    (h : isBlank content = true) :
    create_note content owner s = (.error .validationError, s) := by
  simp [create_note, h]

/-- Witness for C4 at the spec's concrete inputs `""` and `"   "`. -/
theorem create_empty_content_fails_witness :
    (isBlank "" = true) ∧
    (isBlank "   " = true) ∧
    create_note "" "u1" ServiceState.init =
      (.error .validationError, ServiceState.init) ∧
    create_note "   " "u1" ServiceState.init =
      (.error .validationError, ServiceState.init) :=
  ⟨by decide, by decide,
   create_empty_content_fails "" "u1" ServiceState.init (by decide),
   create_empty_content_fails "   " "u1" ServiceState.init (by decide)⟩

/-- C2: if `enrich_note` passes the ownership check (the note exists and
belongs to the requester) but the backend call fails, the operation
returns `EnrichmentFailed` and the state — hence the stored note's
content, metadata and timestamps — is exactly unchanged. -/
theorem enrich_failure_leaves_note_unmodified (backend : LLMBackend)
    (id : Nat) (owner : String) (s : ServiceState) (n : Note)
    (hfind : s.find id = some n) (howner : n.user_id = owner)
    (hfail : backend.enrich n.content = none) :
    enrich_note backend id owner s = (.error .enrichmentFailed, s) := by
  simp [enrich_note, hfind, howner, hfail]

/-- Witness for C2 with the always-failing backend on the demo note. -/
theorem enrich_failure_leaves_note_unmodified_witness :
    demoState.find 0 = some demoNote ∧
    demoNote.user_id = "u1" ∧
    failingBackend.enrich demoNote.content = none ∧
    enrich_note failingBackend 0 "u1" demoState =
      (.error .enrichmentFailed, demoState) :=
  ⟨by decide, by decide, rfl,
   enrich_failure_leaves_note_unmodified failingBackend 0 "u1" demoState
     demoNote (by decide) (by decide) rfl⟩

/-- C3: `get_note` fails with `NotFound` exactly when no note with the
given id exists in the store (in particular after a successful delete of
that id), fails with `Forbidden` exactly when the store's lookup finds a
note whose owner differs from the requester, and never fails with
`ValidationError`. -/
theorem get_note_error_taxonomy (id : Nat) (owner : String)
    (s : ServiceState) :
    (get_note id owner s = .error .notFound ↔ ∀ n ∈ s.notes, n.id ≠ id) ∧
    (get_note id owner s = .error .forbidden ↔
      ∃ n, s.find id = some n ∧ n.user_id ≠ owner) ∧
    get_note id owner s ≠ .error .validationError ∧
    (∀ requester, (delete_note id requester s).1 = .ok true →
      get_note id owner (delete_note id requester s).2 = .error .notFound) := by
  have hchar : s.find id = none ↔ ∀ n ∈ s.notes, n.id ≠ id := by
    simp [ServiceState.find, List.find?_eq_none]
  refine ⟨?_, ?_, ?_, ?_⟩
  · rw [← hchar]
    rcases hf : s.find id with _ | n
    · simp [get_note, hf]
    · by_cases ho : n.user_id = owner <;> simp [get_note, hf, ho]
  · rcases hf : s.find id with _ | n
    · simp [get_note, hf]
    · by_cases ho : n.user_id = owner <;> simp [get_note, hf, ho]
  · rcases hf : s.find id with _ | n
    · simp [get_note, hf]
    · by_cases ho : n.user_id = owner <;> simp [get_note, hf, ho]
  · intro requester hdel
    unfold delete_note at hdel ⊢
    rcases hf : s.find id with _ | n
    · rw [hf] at hdel
      simp at hdel
    · rw [hf] at hdel
      by_cases ho : n.user_id = requester
      · have hnone : ServiceState.find
            { notes := s.notes.filter (fun m => m.id != id)
              nextId := s.nextId, clock := s.clock } id = none := by
          simp only [ServiceState.find, List.find?_eq_none]
          intro x hx
          simp only [List.mem_filter, bne_iff_ne] at hx
          simp [hx.2]
        simp [ho, get_note, hnone]
      · simp [ho] at hdel

/-- Witness for C3's delete conjunct (and the others) on the demo note. -/
theorem get_note_error_taxonomy_witness :
    ((delete_note 0 "u1" demoState).1 = .ok true) ∧
    ((get_note 0 "u1" demoState = .error .notFound ↔
        ∀ n ∈ demoState.notes, n.id ≠ 0) ∧
      (get_note 0 "u1" demoState = .error .forbidden ↔
        ∃ n, demoState.find 0 = some n ∧ n.user_id ≠ "u1") ∧
      get_note 0 "u1" demoState ≠ .error .validationError ∧
      (∀ requester, (delete_note 0 requester demoState).1 = .ok true →
        get_note 0 "u1" (delete_note 0 requester demoState).2 =
          .error .notFound)) :=
  ⟨rfl, get_note_error_taxonomy 0 "u1" demoState⟩

/-- C6: for an existing note and its owner — with the note's `updated_at`
strictly below the state's clock, as every reachable state guarantees —
`update_note` supplying only content leaves the metadata exactly
unchanged, `update_note` supplying only metadata leaves the content
exactly unchanged, and either call makes the resulting `updated_at`
strictly greater than the note's previous `updated_at`. -/
theorem update_note_frame (id : Nat) (owner : String) (s : ServiceState)
    (n : Note) (hfind : s.find id = some n) (howner : n.user_id = owner)
    (hclock : n.updated_at < s.clock) :
    (∀ c, isBlank c = false →
      ∃ note, (update_note id owner (some c) none s).1 = .ok note ∧
        note.metadata = n.metadata ∧
        note.content = c ∧
        n.updated_at < note.updated_at) ∧
    (∀ m, ∃ note, (update_note id owner none (some m) s).1 = .ok note ∧
      note.content = n.content ∧
      note.metadata = m ∧
      n.updated_at < note.updated_at) := by
  constructor
  · intro c hc
    refine ⟨{ n with content := c, updated_at := s.clock }, ?_, rfl, rfl, hclock⟩
    simp [update_note, hfind, howner, badContent, hc]
  · intro m
    refine ⟨{ n with metadata := m, updated_at := s.clock }, ?_, rfl, rfl,
            hclock⟩
    simp [update_note, hfind, howner, badContent]

/-- Witness for C6: the spec's concrete content edit and a metadata
replacement on the demo note. -/
theorem update_note_frame_witness :
    demoState.find 0 = some demoNote ∧
    demoNote.user_id = "u1" ∧
    demoNote.updated_at < demoState.clock ∧
    ((∀ c, isBlank c = false →
      ∃ note, (update_note 0 "u1" (some c) none demoState).1 = .ok note ∧
        note.metadata = demoNote.metadata ∧
        note.content = c ∧
        demoNote.updated_at < note.updated_at) ∧
    (∀ m, ∃ note, (update_note 0 "u1" none (some m) demoState).1 = .ok note ∧
      note.content = demoNote.content ∧
      note.metadata = m ∧
      demoNote.updated_at < note.updated_at)) :=
  ⟨by decide, by decide, by decide,
   update_note_frame 0 "u1" demoState demoNote (by decide) (by decide)
     (by decide)⟩

/-- C7: `get_notes(owner)` returns exactly the notes whose owner matches,
in the store's most-recently-created-first order (empty when the owner has
none); concretely, after three notes for `"u1"` and one for `"u2"`,
`get_notes "u1"` has exactly 3 notes newest first, `get_notes "u2"`
exactly 1, and `get_notes "u3"` is empty. -/
theorem get_notes_by_owner (owner : String) (s : ServiceState)
    (hsorted : s.notes.Pairwise (fun a b => b.created_at < a.created_at)) :
    get_notes owner s = s.notes.filter (fun n => n.user_id == owner) ∧
    (get_notes owner s).Pairwise (fun a b => b.created_at < a.created_at) ∧
    (∀ n ∈ get_notes owner s, n.user_id = owner) ∧
    (∀ n ∈ s.notes, n.user_id = owner → n ∈ get_notes owner s) ∧
    ((∀ n ∈ s.notes, n.user_id ≠ owner) → get_notes owner s = []) ∧
    (get_notes "u1" listState).length = 3 ∧
    (get_notes "u2" listState).length = 1 ∧
    get_notes "u3" listState = [] ∧
    (get_notes "u1" listState).map Note.created_at = [2, 1, 0] := by
  refine ⟨rfl, hsorted.filter _, ?_, ?_, ?_, by decide, by decide, by decide,
          by decide⟩
  · intro n hn
    simp only [get_notes, List.mem_filter, beq_iff_eq] at hn
    exact hn.2
  · intro n hn hown
    simp only [get_notes, List.mem_filter, beq_iff_eq]
    exact ⟨hn, hown⟩
  · intro hnone
    simp only [get_notes, List.filter_eq_nil_iff, beq_iff_eq]
    exact hnone

/-- Witness for C7 on the four-note listing state, which is sorted
newest first. -/
theorem get_notes_by_owner_witness :
    listState.notes.Pairwise (fun a b => b.created_at < a.created_at) ∧
    (get_notes "u1" listState =
      listState.notes.filter (fun n => n.user_id == "u1") ∧
    (get_notes "u1" listState).Pairwise
      (fun a b => b.created_at < a.created_at) ∧
    (∀ n ∈ get_notes "u1" listState, n.user_id = "u1") ∧
    (∀ n ∈ listState.notes, n.user_id = "u1" → n ∈ get_notes "u1" listState) ∧
    ((∀ n ∈ listState.notes, n.user_id ≠ "u1") →
      get_notes "u1" listState = []) ∧
    (get_notes "u1" listState).length = 3 ∧
    (get_notes "u2" listState).length = 1 ∧
    get_notes "u3" listState = [] ∧
    (get_notes "u1" listState).map Note.created_at = [2, 1, 0]) :=
  ⟨by decide, get_notes_by_owner "u1" listState (by decide)⟩

/-- Truncating a non-empty string to a positive number of characters
leaves a non-empty string. -/
theorem truncate_ne_empty (text : String) (k : Nat) (htext : text ≠ "")
    (hk : 0 < k) : truncate text k ≠ "" := by
  intro hcontr
  apply htext
  have hdata : text.data.take k = [] := congrArg String.data hcontr
  have hlen : min k text.data.length = 0 := by
    simpa using congrArg List.length hdata
  have hdat : text.data = [] := List.length_eq_zero.mp (by omega)
  cases text
  simp_all

/-- Replacing the note a store lookup finds by a note with the same id is
again what the lookup finds. -/
theorem find?_map_replace (notes : List Note) (id : Nat) (n n' : Note)
    (hfind : notes.find? (fun m => m.id == id) = some n)
    (hid : n'.id = n.id) :
    (notes.map (fun m => if m.id == id then n' else m)).find?
      (fun m => m.id == id) = some n' := by
  induction notes with
  | nil => simp at hfind
  | cons a l ih =>
    simp only [List.find?_cons] at hfind
    simp only [List.map_cons, List.find?_cons]
    by_cases ha : (a.id == id) = true
    · simp only [ha] at hfind
      obtain rfl : a = n := by simpa using hfind
      have hn' : (n'.id == id) = true := by
        rw [beq_iff_eq] at ha ⊢
        rw [hid, ha]
      simp [ha, hn']
    · simp only [Bool.not_eq_true] at ha
      simp only [ha] at hfind
      simp only [ha, Bool.false_eq_true, if_false]
      exact ih hfind

/-- C5: a successful `enrich_note` replaces the note's metadata with the
stamped backend result — `metadataOfResult` is a function of the backend
result, the backend's model identifier and the clock only, so no field of
the previous metadata survives — and with the stub backend the resulting
summary is non-empty and the model-identifier field equals `"stub"`. -/
theorem enrich_replaces_metadata (id : Nat) (owner : String)
    (s : ServiceState) (n : Note) (hfind : s.find id = some n)
    (howner : n.user_id = owner) (hne : n.content ≠ "") :
    (∀ backend r, backend.enrich n.content = some r →
      (enrich_note backend id owner s).1 =
        .ok { n with
                metadata := metadataOfResult r backend.model_identifier s.clock
                updated_at := s.clock }) ∧
    (∃ note, (enrich_note stubBackend id owner s).1 = .ok note ∧
      note.metadata.llm_model = some "stub" ∧
      ∀ str, note.metadata.summary = some str → str ≠ "") := by
  constructor
  · intro backend r hr
    simp [enrich_note, hfind, howner, hr]
  · refine ⟨{ n with
        metadata := metadataOfResult (stubResult n.content) "stub" s.clock
        updated_at := s.clock }, ?_, rfl, ?_⟩
    · simp [enrich_note, hfind, howner, stubBackend]
    · intro str hstr
      simp only [metadataOfResult, stubResult, Option.some.injEq] at hstr
      subst hstr
      exact truncate_ne_empty n.content 100 hne (by norm_num)

/-- Witness for C5 on the demo note. -/
theorem enrich_replaces_metadata_witness :
    demoState.find 0 = some demoNote ∧
    demoNote.user_id = "u1" ∧
    demoNote.content ≠ "" ∧
    ((∀ backend r, backend.enrich demoNote.content = some r →
      (enrich_note backend 0 "u1" demoState).1 =
        .ok { demoNote with
                metadata := metadataOfResult r backend.model_identifier
                  demoState.clock
                updated_at := demoState.clock }) ∧
    (∃ note, (enrich_note stubBackend 0 "u1" demoState).1 = .ok note ∧
      note.metadata.llm_model = some "stub" ∧
      ∀ str, note.metadata.summary = some str → str ≠ "")) :=
  ⟨by decide, by decide, by decide,
   enrich_replaces_metadata 0 "u1" demoState demoNote (by decide) (by decide)
     (by decide)⟩

/-- C8: with the stub backend, enriching twice in a row without changing
the note's content yields metadata whose timestamp-free fields after the
second call equal those after the first. -/
theorem stub_enrich_idempotent (id : Nat) (owner : String)
    (s : ServiceState) (n : Note) (hfind : s.find id = some n)
    (howner : n.user_id = owner) :
    ∃ note₁ s₁ note₂,
      enrich_note stubBackend id owner s = (.ok note₁, s₁) ∧
      (enrich_note stubBackend id owner s₁).1 = .ok note₂ ∧
      metaContent note₂.metadata = metaContent note₁.metadata := by
  subst howner
  have hr : stubBackend.enrich n.content = some (stubResult n.content) := rfl
  refine ⟨{ n with
      metadata := metadataOfResult (stubResult n.content) "stub" s.clock
      updated_at := s.clock },
    { s with
      notes := s.notes.map (fun m =>
        if m.id == id then
          { n with
              metadata := metadataOfResult (stubResult n.content) "stub" s.clock
              updated_at := s.clock }
        else m)
      clock := s.clock + 1 },
    { n with
      metadata := metadataOfResult (stubResult n.content) "stub" (s.clock + 1)
      updated_at := s.clock + 1 },
    ?_, ?_, rfl⟩
  · simp [enrich_note, hfind, hr, stubBackend]
  · have hstate : ServiceState.find
        { s with
          notes := s.notes.map (fun m =>
            if m.id == id then
              { n with
                  metadata :=
                    metadataOfResult (stubResult n.content) "stub" s.clock
                  updated_at := s.clock }
            else m)
          clock := s.clock + 1 } id = some
          { n with
              metadata := metadataOfResult (stubResult n.content) "stub" s.clock
              updated_at := s.clock } :=
      find?_map_replace s.notes id n _ hfind rfl
    unfold enrich_note
    rw [hstate]
    simp [stubBackend]

/-- Witness for C8 on the demo note. -/
theorem stub_enrich_idempotent_witness :
    demoState.find 0 = some demoNote ∧
    demoNote.user_id = "u1" ∧
    ∃ note₁ s₁ note₂,
      enrich_note stubBackend 0 "u1" demoState = (.ok note₁, s₁) ∧
      (enrich_note stubBackend 0 "u1" s₁).1 = .ok note₂ ∧
      metaContent note₂.metadata = metaContent note₁.metadata :=
  ⟨by decide, by decide,
   stub_enrich_idempotent 0 "u1" demoState demoNote (by decide) (by decide)⟩

/-- Replacing the id-matching notes of a constraint-satisfying store by a
constraint-satisfying note keeps every stored metadata
constraint-satisfying. -/
theorem metaOK_map_replace (notes : List Note) (id : Nat) (n' : Note)
    (h : ∀ m ∈ notes, metaOK m.metadata = true)
    (h' : metaOK n'.metadata = true) :
    ∀ x ∈ notes.map (fun m => if m.id == id then n' else m),
      metaOK x.metadata = true := by
  intro x hx
  rcases List.mem_map.mp hx with ⟨m, hmem, rfl⟩
  by_cases hmid : (m.id == id) = true
  · simpa [hmid] using h'
  · simp only [Bool.not_eq_true] at hmid
    simpa [hmid] using h m hmem

/-- A stamped backend result with complexity score in [0, 1] satisfies the
metadata constraints. -/
theorem metaOK_ofResult (r : EnrichResult) (model : String) (now : Nat)
    (h : 0 ≤ r.complexity_score ∧ r.complexity_score ≤ 1) :
    metaOK (metadataOfResult r model now) = true := by
  cases hsv : r.sentiment <;>
    simp [metaOK, metadataOfResult, Option.all, hsv, h]

/-- C9: if every stored metadata object satisfies the data-model
constraints (sentiment, when present, one of
positive/neutral/negative; complexity_score, when present, in [0, 1]),
then after any `create_note`, any `update_note` whose supplied metadata
satisfies the constraints, and any `enrich_note` with a schema-honouring
backend, every stored metadata object still satisfies them. -/
theorem operations_preserve_metadata_invariant (s : ServiceState)
    (h : StoreMetaOK s) :
    (∀ content owner, StoreMetaOK (create_note content owner s).2) ∧
    (∀ id owner c? m?, (∀ m, m? = some m → metaOK m = true) →
      StoreMetaOK (update_note id owner c? m? s).2) ∧
    (∀ backend id owner, BackendOK backend →
      StoreMetaOK (enrich_note backend id owner s).2) := by
  refine ⟨?_, ?_, ?_⟩
  · intro content owner
    by_cases hb : isBlank content = true
    · simpa [create_note, hb] using h
    · simp only [Bool.not_eq_true] at hb
      intro x hx
      simp only [create_note, hb, Bool.false_eq_true, if_false] at hx
      rcases List.mem_cons.mp hx with rfl | hx
      · rfl
      · exact h x hx
  · intro id owner c? m? hm
    rcases hf : s.find id with _ | n
    · simpa [update_note, hf] using h
    · by_cases ho : n.user_id = owner
      · by_cases hbc : badContent c? = true
        · simpa [update_note, hf, ho, hbc] using h
        · simp only [Bool.not_eq_true] at hbc
          have hn : n ∈ s.notes := List.mem_of_find?_eq_some hf
          have h' : metaOK (m?.getD n.metadata) = true := by
            cases m? with
            | none => exact h n hn
            | some m => exact hm m rfl
          have hstate : (update_note id owner c? m? s).2 =
              { s with
                notes := s.notes.map (fun m =>
                  if m.id == id then
                    { n with
                        content := c?.getD n.content
                        metadata := m?.getD n.metadata
                        updated_at := s.clock }
                  else m)
                clock := s.clock + 1 } := by
            simp [update_note, hf, ho, hbc]
          rw [hstate]
          exact metaOK_map_replace s.notes id _ h h'
      · simpa [update_note, hf, ho] using h
  · intro backend id owner hbk
    rcases hf : s.find id with _ | n
    · simpa [enrich_note, hf] using h
    · by_cases ho : n.user_id = owner
      · rcases hr : backend.enrich n.content with _ | r
        · simpa [enrich_note, hf, ho, hr] using h
        · have h' : metaOK
              (metadataOfResult r backend.model_identifier s.clock) = true :=
            metaOK_ofResult r _ _ (hbk n.content r hr)
          have hstate : (enrich_note backend id owner s).2 =
              { s with
                notes := s.notes.map (fun m =>
                  if m.id == id then
                    { n with
                        metadata :=
                          metadataOfResult r backend.model_identifier s.clock
                        updated_at := s.clock }
                  else m)
                clock := s.clock + 1 } := by
            simp [enrich_note, hf, ho, hr]
          rw [hstate]
          exact metaOK_map_replace s.notes id _ h h'
      · simpa [enrich_note, hf, ho] using h

/-- The stub backend honours the schema constraints. -/
theorem stubBackend_ok : BackendOK stubBackend := by
  intro text r hr
  have : r = stubResult text := by
    simpa [stubBackend] using hr.symm
  subst this
  constructor <;> norm_num [stubResult]

/-- Witness for C9: concrete create, metadata update and stub enrichment
on the demo store all preserve the metadata constraints. -/
theorem operations_preserve_metadata_invariant_witness :
    StoreMetaOK demoState ∧
    StoreMetaOK (create_note "More milk" "u1" demoState).2 ∧
    StoreMetaOK (update_note 0 "u1" none (some {}) demoState).2 ∧
    StoreMetaOK (enrich_note stubBackend 0 "u1" demoState).2 :=
  ⟨by unfold StoreMetaOK; decide,
   (operations_preserve_metadata_invariant demoState
     (by unfold StoreMetaOK; decide)).1 "More milk" "u1",
   (operations_preserve_metadata_invariant demoState
     (by unfold StoreMetaOK; decide)).2.1 0 "u1" none (some {})
     (by intro m hm; cases hm; rfl),
   (operations_preserve_metadata_invariant demoState
     (by unfold StoreMetaOK; decide)).2.2 stubBackend 0 "u1" stubBackend_ok⟩

/-- C10: the `metadata` field of a `Note` is always present (the `Note`
type carries it unconditionally, never as an absent field): a
just-created, never-enriched note carries the empty metadata object — the
`Object.keys`-has-no-keys test `NoteMetadata.isEmpty` is `true` — and
after an enrichment the same test is `false`, so consumers can test "has
been enriched" by checking whether the metadata object has any keys. -/
theorem metadata_always_present (content owner : String) (s : ServiceState)
    (h : isBlank content = false) :
    ∃ note s' note₂,
      create_note content owner s = (.ok note, s') ∧
      note.metadata = ({} : NoteMetadata) ∧
      note.metadata.isEmpty = true ∧
      (enrich_note stubBackend note.id owner s').1 = .ok note₂ ∧
      note₂.metadata.isEmpty = false := by
  refine ⟨{ id := s.nextId, content := content, user_id := owner
            created_at := s.clock, updated_at := s.clock, metadata := {} },
          { notes := { id := s.nextId, content := content, user_id := owner
                       created_at := s.clock, updated_at := s.clock
                       metadata := {} } :: s.notes
            nextId := s.nextId + 1, clock := s.clock + 1 },
          { id := s.nextId, content := content, user_id := owner
            created_at := s.clock, updated_at := s.clock + 1
            metadata := metadataOfResult (stubResult content) "stub"
              (s.clock + 1) },
          ?_, rfl, rfl, ?_, rfl⟩
  · simp [create_note, h]
  · simp [enrich_note, ServiceState.find, stubBackend]

/-- Witness for C10 at the spec's concrete input. -/
theorem metadata_always_present_witness :
    isBlank "Buy milk" = false ∧
    ∃ note s' note₂,
      create_note "Buy milk" "u1" ServiceState.init = (.ok note, s') ∧
      note.metadata = ({} : NoteMetadata) ∧
      note.metadata.isEmpty = true ∧
      (enrich_note stubBackend note.id "u1" s').1 = .ok note₂ ∧
      note₂.metadata.isEmpty = false :=
  ⟨by decide,
   metadata_always_present "Buy milk" "u1" ServiceState.init (by decide)⟩

end NoteApp
